import Mathlib

/-!
Verification of the KSeF_Monitor Session & Synchronization Engine.

This file contains a shallow embedding of the relevant parts of
`src/app/ksef_client.py` (class `KSeFClient`) and
`src/app/invoice_monitor.py` (class `InvoiceMonitor`), together with
theorems settling the specification claims about them.

Modelling conventions:
* HTTP calls performed through the `requests` session are modelled by
  oracle values supplied as arguments: each call site receives the
  outcome the server would have produced (a transport error / raised
  exception, or a parsed response body).  Fields read from JSON bodies
  with `dict.get` are `Option`s (`none` = key absent / JSON null).
* Python truthiness of optional strings (`if not self.access_token`)
  is `isTruthy`: `None` and `""` are falsy.
* `hashlib.sha256(...).hexdigest()` is a standard-library function and
  is modelled as an explicit function parameter `sha256hex`; every
  claim about hashing is about which string is fed to it.
* `time.sleep(d)` calls are recorded in an output list of delays.
* Mutation of `self` is explicit state passing on `ClientState`.
-/

namespace KSeF

/-- Python truthiness of an optional string: `None` and `""` are falsy. -/
def isTruthy : Option String → Bool
  | none => false
  | some s => s ≠ ""

/-- Outcome of one HTTP call: a raised exception (network error,
`raise_for_status`, JSON decode error) or a parsed response body. -/
inductive HttpResult (α : Type) where
  | error : HttpResult α
  | ok (body : α) : HttpResult α
deriving DecidableEq, Repr

/-- The mutable fields of `KSeFClient` relevant to the claims:
`self.access_token`, `self.refresh_token`, `self._ksef_public_key`. -/
structure ClientState where
  access_token : Option String
  refresh_token : Option String
  ksef_public_key : Option String
deriving DecidableEq, Repr

/-! ### `_wait_for_auth_status` (ksef_client.py lines 224-274)

The loop `for attempt in range(max_attempts)` is translated with an
explicit attempt index plus remaining-fuel counter; `attempt + fuel`
is constant (15).  `attempt < max_attempts - 1` becomes `fuel ≠ 0`
(after one unit of fuel has been consumed by the current attempt). -/

/-- One polled response: a raised transport error, or a parsed body
whose `status.code` field is `code` (`none` when the key is absent). -/
inductive PollResponse where
  | transportError : PollResponse
  | status (code : Option Int) : PollResponse
deriving DecidableEq, Repr

/-- The sleep before the next attempt: `min(1 * (2 ** attempt), 10)`. -/
def backoffDelay (attempt : Nat) : Nat := min (2 ^ attempt) 10

/-- The polling loop body of `_wait_for_auth_status`.  `attempt` is the
zero-based attempt index, `fuel` the number of attempts still allowed
(including the current one).  Returns the success flag and the list of
sleep delays performed, in order. -/
def waitLoop (resp : Nat → PollResponse) : Nat → Nat → Bool × List Nat
  | _, 0 => (false, [])
  | attempt, fuel + 1 =>
    match resp attempt with
    | .status c =>
      if c = some 200 then (true, [])
      else if c = some 100 then
        let r := waitLoop resp (attempt + 1) fuel
        (r.1, backoffDelay attempt :: r.2)
      else (false, [])
    | .transportError =>
      if fuel = 0 then (false, [])
      else
        let r := waitLoop resp (attempt + 1) fuel
        (r.1, backoffDelay attempt :: r.2)

/-- `_wait_for_auth_status` with its default `max_attempts = 15`. -/
def waitForAuthStatus (resp : Nat → PollResponse) : Bool × List Nat :=
  waitLoop resp 0 15

/-- The delay schedule starting at attempt `a`, `n` delays long. -/
def delaysFrom : Nat → Nat → List Nat
  | _, 0 => []
  | a, n + 1 => backoffDelay a :: delaysFrom (a + 1) n

/-! ### `_fetch_public_key`, `_redeem_token`, `refresh_access_token` -/

/-- One entry of the `GET /v2/security/public-key-certificates`
response: its `usage` list, and the public key that loading the DER
certificate would yield. -/
structure Cert where
  usage : List String
  key : String
deriving DecidableEq, Repr

/-- `_fetch_public_key` (lines 142-168): scans the certificate list for
the first one whose usage contains KsefTokenEncryption and caches its
key; raises (returns `none`) on HTTP error or when none matches. -/
def fetch_public_key (resp : HttpResult (List Cert)) (s : ClientState) :
    Option ClientState :=
  match resp with
  | .error => none
  | .ok certs =>
    match certs.find? (fun c => c.usage.contains "KsefTokenEncryption") with
    | some c => some { s with ksef_public_key := some c.key }
    | none => none

/-- Parsed body of `POST /v2/auth/token/redeem`:
`data.get("accessToken", {}).get("token")` and
`data.get("refreshToken", {}).get("token")`. -/
structure RedeemBody where
  accessTokenToken : Option String
  refreshTokenToken : Option String
deriving DecidableEq, Repr

/-- `_redeem_token` (lines 276-316): on success stores both tokens,
then fails if the stored access token is falsy.  Note that the tokens
are assigned before the check, so a failing redeem still overwrites
them. -/
def redeem_token (resp : HttpResult RedeemBody) (s : ClientState) :
    Bool × ClientState :=
  match resp with
  | .error => (false, s)
  | .ok b =>
    let s' := { s with access_token := b.accessTokenToken,
                       refresh_token := b.refreshTokenToken }
    if isTruthy s'.access_token then (true, s') else (false, s')

/-- Parsed body of `POST /v2/auth/token/refresh`:
`data.get("accessToken", {}).get("token")`. -/
structure RefreshBody where
  accessTokenToken : Option String
deriving DecidableEq, Repr

/-- `refresh_access_token` (lines 318-348): fails immediately without
a refresh token; on HTTP error leaves the state unchanged; on success
overwrites only `access_token` (possibly with `None` when the response
carries no `accessToken.token`) and returns `True`. -/
def refresh_access_token (resp : HttpResult RefreshBody) (s : ClientState) :
    Bool × ClientState :=
  if isTruthy s.refresh_token then
    match resp with
    | .error => (false, s)
    | .ok b => (true, { s with access_token := b.accessTokenToken })
  else (false, s)

/-! ### `authenticate` (lines 62-109) -/

/-- Parsed body of `POST /v2/auth/challenge`. -/
structure ChallengeBody where
  challenge : Option String
  timestampMs : Option Int
deriving DecidableEq, Repr

/-- Parsed body of `POST /v2/auth/ksef-token`. -/
structure AuthSubmitBody where
  referenceNumber : Option String
  authToken : Option String
deriving DecidableEq, Repr

/-- The server-side outcomes consumed by one `authenticate` call, one
oracle per HTTP call site. -/
structure AuthOracles where
  challengeResp : HttpResult ChallengeBody
  certsResp : HttpResult (List Cert)
  submitResp : HttpResult AuthSubmitBody
  pollResponses : Nat → PollResponse
  redeemResp : HttpResult RedeemBody

/-- Result of `authenticate`: the returned boolean, the client state
afterwards, and how many times `_fetch_public_key` was invoked. -/
structure AuthResult where
  ok : Bool
  state : ClientState
  fetchAttempts : Nat
deriving Repr

/-- Steps 3-5 of `authenticate`: `_authenticate_with_token` (a raised
crypto or HTTP error is `submitResp = .error`), `_wait_for_auth_status`
and `_redeem_token`. -/
def authWithKey (o : AuthOracles) (s : ClientState) (fetches : Nat) :
    AuthResult :=
  match o.submitResp with
  | .error => ⟨false, s, fetches⟩
  | .ok _ =>
    if (waitForAuthStatus o.pollResponses).1 then
      let r := redeem_token o.redeemResp s
      ⟨r.1, r.2, fetches⟩
    else ⟨false, s, fetches⟩

/-- `authenticate`: challenge, then fetch the public key only when none
is cached, then submit / poll / redeem.  A challenge body without a
`challenge` field raises (`challenge[:10]` on `None`) and is caught by
the surrounding `except`, returning `False`. -/
def authenticate (o : AuthOracles) (s : ClientState) : AuthResult :=
  match o.challengeResp with
  | .error => ⟨false, s, 0⟩
  | .ok cb =>
    match cb.challenge with
    | none => ⟨false, s, 0⟩
    | some _ =>
      if s.ksef_public_key.isSome then
        authWithKey o s 0
      else
        match fetch_public_key o.certsResp s with
        | none => ⟨false, s, 1⟩
        | some s1 => authWithKey o s1 1

/-! ### `revoke_current_session` (lines 463-486) -/

/-- `revoke_current_session`: returns immediately when no access token
is stored; otherwise issues the DELETE (its outcome only logged) and in
the `finally` block clears both tokens. -/
def revoke_current_session (deleteResp : HttpResult Unit) (s : ClientState) :
    ClientState :=
  if isTruthy s.access_token then
    match deleteResp with
    | .error => { s with access_token := none, refresh_token := none }
    | .ok _ => { s with access_token := none, refresh_token := none }
  else s

/-! ### `get_invoices_metadata` (lines 350-434) -/

/-- The fields of an invoice-metadata dictionary consulted by the
deduplication logic (`get_invoice_id_hash`); `none` = key absent. -/
structure Invoice where
  ksefReferenceNumber : Option String
  ksefNumber : Option String
deriving DecidableEq, Repr

/-- Server-side outcomes consumed by one `get_invoices_metadata` call:
the initial-authentication oracles (used only when no access token is
cached), the first POST (`none` = raised transport error, otherwise
status code and the parsed `invoices` list), the 401-recovery refresh
and reauthentication oracles, and the retried POST. -/
structure QueryOracles where
  preAuthO : AuthOracles
  firstPost : Option (Int × List Invoice)
  refreshResp : HttpResult RefreshBody
  recoveryAuthO : AuthOracles
  retryPost : Option (Int × List Invoice)

/-- Result of `get_invoices_metadata`: the returned invoice list, the
client state afterwards, and which credential paths were invoked. -/
structure QueryResult where
  invoices : List Invoice
  state : ClientState
  preAuth : Bool
  refreshTried : Bool
  recoveryAuth : Bool
deriving Repr

/-- The retried POST after a successful 401 recovery, followed by
`raise_for_status` (raises for any status ≥ 400). -/
def queryRetry (o : QueryOracles) (s : ClientState)
    (pre recAuth : Bool) : QueryResult :=
  match o.retryPost with
  | none => ⟨[], s, pre, true, recAuth⟩
  | some (st, invs) =>
    if 400 ≤ st then ⟨[], s, pre, true, recAuth⟩
    else ⟨invs, s, pre, true, recAuth⟩

/-- The body of `get_invoices_metadata` after the access token is
known to be present: first POST, the 401 branch (refresh first, then
full reauthentication, each retrying the single request once), then
`raise_for_status` and `data.get('invoices', [])`. -/
def queryCore (o : QueryOracles) (s : ClientState) (pre : Bool) :
    QueryResult :=
  match o.firstPost with
  | none => ⟨[], s, pre, false, false⟩
  | some (st, invs) =>
    if st = 401 then
      let r := refresh_access_token o.refreshResp s
      if r.1 then queryRetry o r.2 pre false
      else
        let a := authenticate o.recoveryAuthO r.2
        if a.ok then queryRetry o a.state pre true
        else ⟨[], a.state, pre, true, true⟩
    else if 400 ≤ st then ⟨[], s, pre, false, false⟩
    else ⟨invs, s, pre, false, false⟩

/-- `get_invoices_metadata`: authenticates first when no access token
is cached (returning `[]` if that fails), then runs the query with its
401 fallback chain. -/
def get_invoices_metadata (o : QueryOracles) (s : ClientState) :
    QueryResult :=
  if isTruthy s.access_token then queryCore o s false
  else
    let a := authenticate o.preAuthO s
    if a.ok then queryCore o a.state true
    else ⟨[], a.state, true, false, false⟩

end KSeF

namespace Monitor

open KSeF

/-! ### `InvoiceMonitor.load_state` (invoice_monitor.py lines 135-170)

A raw element of the persisted `seen_invoices` JSON list: either a JSON
object (with optional values at keys "h" and "ts") or an old-format
plain string.  Timestamps are ISO-8601 strings compared
lexicographically, exactly as the source compares them. -/

/-- One raw `seen_invoices` element as found in the state file. -/
inductive RawEntry where
  | dict (h : Option String) (ts : Option String)
  | str (s : String)
deriving DecidableEq, Repr

/-- The persisted monitor state: `last_check` and `seen_invoices`. -/
structure RawState where
  last_check : Option String
  seen_invoices : List RawEntry
deriving DecidableEq, Repr

/-- Lexicographic code-point comparison of char lists, the order
Python uses to compare strings. -/
def charsLe : List Char → List Char → Bool
  | [], _ => true
  | _ :: _, [] => false
  | a :: as, b :: bs =>
    if a < b then true
    else if b < a then false
    else charsLe as bs

/-- Python string comparison `a <= b` (lexicographic by code point). -/
def pyStrLe (a b : String) : Bool := charsLe a.data b.data

/-- The load-time filter: keep an entry iff it is a dict, has key "h",
and `entry.get("ts", "") >= cutoff` (Python lexicographic string
comparison). -/
def keepEntry (cutoff : String) : RawEntry → Bool
  | .dict h ts => h.isSome && pyStrLe cutoff (ts.getD "")
  | .str _ => false

/-- `load_state`: `none` models a missing state file or a raised
read/JSON error, yielding the default state; otherwise the
`seen_invoices` list is filtered by `keepEntry` with
`cutoff = (now_utc - 90 days).isoformat()`, passed here as a value. -/
def load_state (cutoff : String) (file : Option RawState) : RawState :=
  match file with
  | none => ⟨none, []⟩
  | some st => ⟨st.last_check, st.seen_invoices.filter (keepEntry cutoff)⟩

/-! ### `InvoiceMonitor.get_invoice_id_hash` (lines 187-200) -/

/-- Python `a or b` for an optional string `a` and string `b`. -/
def pythonOr (a : Option String) (b : String) : String :=
  match a with
  | some s => if s = "" then b else s
  | none => b

/-- `get_invoice_id_hash`: feeds
`invoice.get('ksefReferenceNumber') or invoice.get('ksefNumber', '')`
to SHA-256 (the library hash is the parameter `sha256hex`). -/
def get_invoice_id_hash (sha256hex : String → String) (invoice : Invoice) :
    String :=
  sha256hex (pythonOr invoice.ksefReferenceNumber (invoice.ksefNumber.getD ""))

/-! ### `InvoiceMonitor.check_for_new_invoices` (lines 202-272) -/

/-- One emitted trigger: the notification attempt for a new invoice,
with the boolean outcome `send_invoice_notification` returned (the
source only logs it). -/
structure TriggerEvent where
  invoice : Invoice
  subject_type : String
  notified : Bool
deriving DecidableEq, Repr

/-- The loop state of one `check_for_new_invoices` run: the
`seen_hashes` set (as a list, membership only), the `seen_entries`
list, the trigger events emitted so far, and the client state
(mutated by the queries and artifact fetches). -/
structure LoopAcc where
  seen_hashes : List String
  seen_entries : List RawEntry
  events : List TriggerEvent
  client : ClientState

/-- Processing of one invoice inside the per-subject-type loop: skip
when its digest is already seen, otherwise mark it seen (hash set and
`seen_entries` append) and only then notify and save artifacts.
`notifyOk k` is the outcome of the k-th notification attempt of the
run; `artifacts` is the client-state effect of
`_save_invoice_artifacts` (which may re-authenticate while fetching
XML/UPO but touches no monitor state). -/
def processInvoice (sha256hex : String → String) (now st0 : String)
    (notifyOk : Nat → Bool)
    (artifacts : Invoice → String → ClientState → ClientState)
    (acc : LoopAcc) (inv : Invoice) : LoopAcc :=
  let hash := get_invoice_id_hash sha256hex inv
  if hash ∈ acc.seen_hashes then acc
  else
    { seen_hashes := hash :: acc.seen_hashes,
      seen_entries := acc.seen_entries ++ [.dict (some hash) (some now)],
      events := acc.events ++ [⟨inv, st0, notifyOk acc.events.length⟩],
      client := artifacts inv st0 acc.client }

/-- One iteration of the `for subject_type in self.subject_types`
loop: query the metadata (threading the client state), then process
each returned invoice. -/
def processSubject (sha256hex : String → String) (now : String)
    (notifyOk : Nat → Bool)
    (artifacts : Invoice → String → ClientState → ClientState)
    (qo : QueryOracles) (st0 : String) (acc : LoopAcc) : LoopAcc :=
  let qr := get_invoices_metadata qo acc.client
  qr.invoices.foldl
    (processInvoice sha256hex now st0 notifyOk artifacts)
    { acc with client := qr.state }

/-- Python `l[-n:]` for `n > 0`: the last `n` elements. -/
def lastN (n : Nat) (l : List α) : List α := l.drop (l.length - n)

/-- The accumulated loop state of a whole run, starting from the
loaded state (whose entries, after `load_state`, are all dicts with an
"h" key, read by `e["h"]`). -/
def runCycle (subject_types : List String) (qos : Nat → QueryOracles)
    (sha256hex : String → String) (now : String) (notifyOk : Nat → Bool)
    (artifacts : Invoice → String → ClientState → ClientState)
    (loaded : RawState) (cs : ClientState) : LoopAcc :=
  let init : LoopAcc :=
    { seen_hashes := loaded.seen_invoices.filterMap
        (fun e => match e with | .dict h _ => h | .str _ => none),
      seen_entries := loaded.seen_invoices,
      events := [],
      client := cs }
  (subject_types.enum).foldl
    (fun acc p => processSubject sha256hex now notifyOk artifacts
      (qos p.1) p.2 acc)
    init

/-- Result of `check_for_new_invoices`: the state handed to
`save_state`, the trigger events, and the final client state. -/
structure CycleResult where
  saved : RawState
  events : List TriggerEvent
  client : ClientState

/-- `check_for_new_invoices`: run the per-subject-type loop, then set
`last_check = now.isoformat()`, cap `seen_invoices` to the last 1000
entries and persist.  The query window (`last_check` or a 24-hour
lookback) only shapes the HTTP request bodies, which are absorbed into
the per-call oracles `qos`. -/
def check_for_new_invoices (subject_types : List String)
    (qos : Nat → QueryOracles) (sha256hex : String → String) (now : String)
    (notifyOk : Nat → Bool)
    (artifacts : Invoice → String → ClientState → ClientState)
    (loaded : RawState) (cs : ClientState) : CycleResult :=
  let fin := runCycle subject_types qos sha256hex now notifyOk artifacts
    loaded cs
  { saved := ⟨some now, lastN 1000 fin.seen_entries⟩,
    events := fin.events,
    client := fin.client }

/-- The number of trigger events of a run whose invoice has the
identity digest `d`. -/
def eventCount (sha256hex : String → String) (d : String)
    (evs : List TriggerEvent) : Nat :=
  (evs.filter (fun e => get_invoice_id_hash sha256hex e.invoice = d)).length

/-- The loop state without the notification outcomes: the seen set,
the ledger, the client state, and the invoice/subject data of the
events (dropping the `notified` flag). -/
def accData (acc : LoopAcc) :
    List String × List RawEntry × KSeF.ClientState
      × List (KSeF.Invoice × String) :=
  (acc.seen_hashes, acc.seen_entries, acc.client,
    acc.events.map (fun e => (e.invoice, e.subject_type)))

/-- Oracles of a metadata query whose 401 is answered by a failing
refresh (transport error) and a failing reauthentication (challenge
request fails). -/
def credFailQO : QueryOracles :=
  ⟨⟨.error, .error, .error, fun _ => .transportError, .error⟩,
   some (401, []), .error,
   ⟨.error, .error, .error, fun _ => .transportError, .error⟩,
   none⟩

end Monitor

section ClaimTheorems

open KSeF Monitor

/-! ## Helper lemmas about the client model -/

/-- `_redeem_token` never touches the cached public key. -/
lemma redeem_token_key (r : HttpResult RedeemBody) (s : ClientState) :
    (redeem_token r s).2.ksef_public_key = s.ksef_public_key := by
  cases r with
  | error => rfl
  | ok b => simp only [redeem_token]; split <;> rfl

/-- Steps 3-5 of `authenticate` report exactly the fetch count they
were given. -/
lemma authWithKey_fetchAttempts (o : AuthOracles) (s : ClientState)
    (f : Nat) : (authWithKey o s f).fetchAttempts = f := by
  cases h : o.submitResp with
  | error => simp [authWithKey, h]
  | ok b =>
    simp only [authWithKey, h]
    split
    · rfl
    · rfl

/-- Steps 3-5 of `authenticate` never touch the cached public key. -/
lemma authWithKey_key (o : AuthOracles) (s : ClientState) (f : Nat) :
    (authWithKey o s f).state.ksef_public_key = s.ksef_public_key := by
  cases h : o.submitResp with
  | error => simp [authWithKey, h]
  | ok b =>
    simp only [authWithKey, h]
    split
    · exact redeem_token_key o.redeemResp s
    · rfl

/-- When steps 3-5 succeed, the tokens come verbatim from the redeem
response body. -/
lemma authWithKey_ok_redeem (o : AuthOracles) (s : ClientState) (f : Nat)
    (h : (authWithKey o s f).ok = true) :
    ∃ rb : RedeemBody, o.redeemResp = .ok rb ∧
      (authWithKey o s f).state.access_token = rb.accessTokenToken ∧
      (authWithKey o s f).state.refresh_token = rb.refreshTokenToken := by
  cases hs : o.submitResp with
  | error => simp [authWithKey, hs] at h
  | ok b =>
    simp only [authWithKey, hs] at h ⊢
    split at h
    · cases hr : o.redeemResp with
      | error => simp [redeem_token, hr] at h
      | ok rb =>
        refine ⟨rb, rfl, ?_⟩
        simp only [redeem_token, hr] at h ⊢
        split at h <;> simp_all [redeem_token, hr]
    · simp at h

/-! ## C3 -/

/-- C3: on a 401 from the metadata query the refresh path runs first,
and when a refresh token is present and the refresh call succeeds, the
full `authenticate` state machine is not invoked for that recovery;
a successful refresh replaces only the stored access token (the
refresh token is unchanged), while any successful `authenticate`
replaces both tokens with those of its redeem response. -/
theorem C3_refresh_before_reauth :
    (∀ (o : QueryOracles) (s : ClientState) (invs : List Invoice)
        (b : RefreshBody),
      isTruthy s.access_token = true →
      o.firstPost = some (401, invs) →
      isTruthy s.refresh_token = true →
      o.refreshResp = .ok b →
      (get_invoices_metadata o s).refreshTried = true ∧
      (get_invoices_metadata o s).recoveryAuth = false ∧
      (get_invoices_metadata o s).state.refresh_token = s.refresh_token ∧
      (get_invoices_metadata o s).state.access_token = b.accessTokenToken) ∧
    (∀ (o : AuthOracles) (s : ClientState),
      (authenticate o s).ok = true →
      ∃ rb : RedeemBody, o.redeemResp = .ok rb ∧
        (authenticate o s).state.access_token = rb.accessTokenToken ∧
        (authenticate o s).state.refresh_token = rb.refreshTokenToken) := by
  constructor
  · intro o s invs b hacc hfp hrt hr
    have hrefresh : refresh_access_token o.refreshResp s
        = (true, { s with access_token := b.accessTokenToken }) := by
      simp [refresh_access_token, hrt, hr]
    cases hrp : o.retryPost with
    | none =>
      simp [get_invoices_metadata, hacc, queryCore, hfp, hrefresh,
        queryRetry, hrp]
    | some p =>
      rcases p with ⟨st, l⟩
      by_cases h4 : (400 : Int) ≤ st <;>
        simp [get_invoices_metadata, hacc, queryCore, hfp, hrefresh,
          queryRetry, hrp, h4]
  · intro o s h
    cases hc : o.challengeResp with
    | error => simp [authenticate, hc] at h
    | ok cb =>
      cases hch : cb.challenge with
      | none => simp [authenticate, hc, hch] at h
      | some c =>
        simp only [authenticate, hc, hch] at h ⊢
        by_cases hk : s.ksef_public_key.isSome = true
        · rw [if_pos hk] at h ⊢
          exact authWithKey_ok_redeem o s 0 h
        · rw [if_neg hk] at h ⊢
          cases hf : fetch_public_key o.certsResp s with
          | none => simp [hf] at h
          | some s1 =>
            simp only [hf] at h ⊢
            exact authWithKey_ok_redeem o s1 1 h

/-- Witness for C3: a concrete 401 followed by a successful refresh
leaves the refresh token `"rt"` in place, installs the refreshed
access token, and skips reauthentication. -/
theorem C3_witness :
    (get_invoices_metadata
      ⟨⟨.error, .error, .error, fun _ => .transportError, .error⟩,
        some (401, []), .ok ⟨some "new-at"⟩,
        ⟨.error, .error, .error, fun _ => .transportError, .error⟩,
        some (200, [])⟩
      ⟨some "old-at", some "rt", none⟩).recoveryAuth = false ∧
    (get_invoices_metadata
      ⟨⟨.error, .error, .error, fun _ => .transportError, .error⟩,
        some (401, []), .ok ⟨some "new-at"⟩,
        ⟨.error, .error, .error, fun _ => .transportError, .error⟩,
        some (200, [])⟩
      ⟨some "old-at", some "rt", none⟩).state.refresh_token = some "rt" := by
  have h := C3_refresh_before_reauth.1
    ⟨⟨.error, .error, .error, fun _ => .transportError, .error⟩,
      some (401, []), .ok ⟨some "new-at"⟩,
      ⟨.error, .error, .error, fun _ => .transportError, .error⟩,
      some (200, [])⟩
    ⟨some "old-at", some "rt", none⟩ [] ⟨some "new-at"⟩
    (by decide) rfl (by decide) rfl
  exact ⟨h.2.1, h.2.2.1⟩

/-! ## C7 -/

/-- C7 counterexample: an invoice whose primary reference identifier is
present but empty still hashes the secondary number, so the fallback is
not restricted to an absent primary. -/
theorem C7_counterexample :
    (Invoice.mk (some "") (some "FV-1")).ksefReferenceNumber ≠ none ∧
    get_invoice_id_hash (fun s => s) ⟨some "", some "FV-1"⟩ = "FV-1" ∧
    "FV-1" ≠ "" := by
  refine ⟨by decide, rfl, by decide⟩

/-- C7 (amended): the digest is computed from `ksefReferenceNumber`
whenever that field is present and non-empty, and from `ksefNumber`
(defaulting to the empty string) whenever the primary is absent or
empty — Python truthiness of the primary decides the fallback. -/
theorem C7_identity_fallback (sha256hex : String → String) (inv : Invoice) :
    (∀ s, inv.ksefReferenceNumber = some s → s ≠ "" →
      get_invoice_id_hash sha256hex inv = sha256hex s) ∧
    (inv.ksefReferenceNumber = none ∨ inv.ksefReferenceNumber = some "" →
      get_invoice_id_hash sha256hex inv
        = sha256hex (inv.ksefNumber.getD "")) := by
  constructor
  · intro s hs hne
    simp [get_invoice_id_hash, pythonOr, hs, hne]
  · rintro (h | h) <;> simp [get_invoice_id_hash, pythonOr, h]

/-- Witness for C7 (amended): both branches at concrete invoices. -/
theorem C7_witness :
    get_invoice_id_hash (fun s => String.append s "#")
      ⟨some "REF", some "FV-1"⟩ = "REF#" ∧
    get_invoice_id_hash (fun s => String.append s "#")
      ⟨none, some "FV-1"⟩ = "FV-1#" := by
  constructor
  · have h := (C7_identity_fallback (fun s => String.append s "#")
      ⟨some "REF", some "FV-1"⟩).1 "REF" rfl (by decide)
    simpa using h
  · have h := (C7_identity_fallback (fun s => String.append s "#")
      ⟨none, some "FV-1"⟩).2 (Or.inl rfl)
    simpa using h

/-! ## C8 -/

/-- C8 counterexample: with no access token stored but a refresh token
still present, `revoke_current_session` returns before the clearing
code, so the refresh token survives the call — local state is not
always cleared. -/
theorem C8_counterexample :
    revoke_current_session .error ⟨none, some "rt", none⟩
      = ⟨none, some "rt", none⟩ ∧
    (revoke_current_session .error ⟨none, some "rt", none⟩).refresh_token
      ≠ none := by
  exact ⟨rfl, by decide⟩

/-- C8 (amended): when an access token is present, revocation clears
both stored tokens locally even when the server-side DELETE fails (the
failure is only logged); when no access token is stored, the call
returns immediately and leaves the state — including any refresh
token — untouched. -/
theorem C8_revoke_locally_effective (resp : HttpResult Unit)
    (s : ClientState) (h : isTruthy s.access_token = true) :
    revoke_current_session resp s
      = { s with access_token := none, refresh_token := none } ∧
    ∀ s' : ClientState, isTruthy s'.access_token = false →
      revoke_current_session resp s' = s' := by
  constructor
  · cases resp <;> simp [revoke_current_session, h]
  · intro s' h'
    simp [revoke_current_session, h']

/-- Witness for C8 (amended): a failing DELETE still clears both
tokens when an access token is present. -/
theorem C8_witness :
    revoke_current_session .error ⟨some "at", some "rt", some "KEY"⟩
      = ⟨none, none, some "KEY"⟩ := by
  have h := C8_revoke_locally_effective .error
    ⟨some "at", some "rt", some "KEY"⟩ (by decide)
  exact h.1

/-! ## C9 -/

/-- C9 counterexample: with a cached public key, an `authenticate`
call whose token submission is rejected by the server performs zero
key fetches, and so does the next `authenticate` call — the cached key
is never re-fetched, not even after a server-side rejection. -/
theorem C9_counterexample :
    (authenticate
      ⟨.ok ⟨some "ch", some 1700000000000⟩, .error, .error,
        fun _ => .transportError, .error⟩
      ⟨some "at", some "rt", some "KEY"⟩).ok = false ∧
    (authenticate
      ⟨.ok ⟨some "ch", some 1700000000000⟩, .error, .error,
        fun _ => .transportError, .error⟩
      ⟨some "at", some "rt", some "KEY"⟩).fetchAttempts = 0 ∧
    (authenticate
      ⟨.ok ⟨some "ch", some 1700000000000⟩, .error, .error,
        fun _ => .transportError, .error⟩
      ((authenticate
        ⟨.ok ⟨some "ch", some 1700000000000⟩, .error, .error,
          fun _ => .transportError, .error⟩
        ⟨some "at", some "rt", some "KEY"⟩).state)).fetchAttempts = 0 := by
  refine ⟨rfl, rfl, rfl⟩

/-- C9 (amended): once a public key is cached, `authenticate` performs
no further fetch under any server behaviour (rejections included) and
leaves the cached key unchanged; a call never fetches more than
once. -/
theorem C9_key_fetched_once (o : AuthOracles) (s : ClientState)
    (h : s.ksef_public_key.isSome = true) :
    (authenticate o s).fetchAttempts = 0 ∧
    (authenticate o s).state.ksef_public_key = s.ksef_public_key ∧
    ∀ (o' : AuthOracles) (s' : ClientState),
      (authenticate o' s').fetchAttempts ≤ 1 := by
  refine ⟨?_, ?_, ?_⟩
  · cases hc : o.challengeResp with
    | error => simp [authenticate, hc]
    | ok cb =>
      cases hch : cb.challenge with
      | none => simp [authenticate, hc, hch]
      | some c =>
        simp only [authenticate, hc, hch, h, if_pos]
        exact authWithKey_fetchAttempts o s 0
  · cases hc : o.challengeResp with
    | error => simp [authenticate, hc]
    | ok cb =>
      cases hch : cb.challenge with
      | none => simp [authenticate, hc, hch]
      | some c =>
        simp only [authenticate, hc, hch, h, if_pos]
        exact authWithKey_key o s 0
  · intro o' s'
    cases hc : o'.challengeResp with
    | error => simp [authenticate, hc]
    | ok cb =>
      cases hch : cb.challenge with
      | none => simp [authenticate, hc, hch]
      | some c =>
        simp only [authenticate, hc, hch]
        split
        · simp [authWithKey_fetchAttempts]
        · cases hf : fetch_public_key o'.certsResp s' with
          | none => simp
          | some s1 => simp [authWithKey_fetchAttempts]

/-- Witness for C9 (amended): with a cached key and a fully successful
handshake, no fetch happens and the key survives. -/
theorem C9_witness :
    (authenticate
      ⟨.ok ⟨some "ch", some 1⟩, .error, .ok ⟨some "ref", some "tmp"⟩,
        fun _ => .status (some 200), .ok ⟨some "at2", some "rt2"⟩⟩
      ⟨none, none, some "KEY"⟩).fetchAttempts = 0 ∧
    (authenticate
      ⟨.ok ⟨some "ch", some 1⟩, .error, .ok ⟨some "ref", some "tmp"⟩,
        fun _ => .status (some 200), .ok ⟨some "at2", some "rt2"⟩⟩
      ⟨none, none, some "KEY"⟩).state.ksef_public_key = some "KEY" := by
  have h := C9_key_fetched_once
    ⟨.ok ⟨some "ch", some 1⟩, .error, .ok ⟨some "ref", some "tmp"⟩,
      fun _ => .status (some 200), .ok ⟨some "at2", some "rt2"⟩⟩
    ⟨none, none, some "KEY"⟩ (by decide)
  exact ⟨h.1, h.2.1⟩

/-! ## C10 -/

/-- C10: a token refresh whose HTTP call succeeds but whose body lacks
`accessToken.token` still returns `True` while setting the stored
access token to `None`; token redemption, in contrast, returns `False`
when its response carries no access token. -/
theorem C10_refresh_true_without_token (s : ClientState)
    (h : isTruthy s.refresh_token = true) :
    refresh_access_token (.ok ⟨none⟩) s
      = (true, { s with access_token := none }) ∧
    ∀ rb : RedeemBody, rb.accessTokenToken = none →
      (redeem_token (.ok rb) s).1 = false := by
  constructor
  · simp [refresh_access_token, h]
  · intro rb hrb
    simp [redeem_token, hrb, isTruthy]

/-- Witness for C10: the concrete degenerate refresh response leaves
the client without an access credential while reporting success. -/
theorem C10_witness :
    refresh_access_token (.ok ⟨none⟩) ⟨some "at", some "rt", none⟩
      = (true, ⟨none, some "rt", none⟩) ∧
    (redeem_token (.ok ⟨none, some "rt2"⟩) ⟨some "at", some "rt", none⟩).1
      = false := by
  have h := C10_refresh_true_without_token ⟨some "at", some "rt", none⟩
    (by decide)
  exact ⟨h.1, h.2 ⟨none, some "rt2"⟩ rfl⟩

/-! ## C5 -/

/-- A non-empty string is never `<=` the empty string in Python's
lexicographic order, so `entry.get("ts", "")` makes a timestamp-less
entry fail any real (non-empty) cutoff. -/
lemma pyStrLe_empty_right (a : String) (h : a ≠ "") :
    pyStrLe a "" = false := by
  cases a with
  | mk data =>
    cases data with
    | nil => exact absurd (by decide) h
    | cons c cs => rfl

/-- C5: `load_state` keeps exactly the structured digest-plus-timestamp
entries whose timestamp is at least the 90-day cutoff; old-format
string entries and entries without the structured shape are dropped,
not migrated, and no size cap is applied at load time.  The hypothesis
records that the cutoff is a real (hence non-empty) ISO timestamp
string, which makes the source's `entry.get("ts", "") >= cutoff` test
equivalent to "has a timestamp inside the window". -/
theorem C5_load_ttl_eviction (cutoff : String) (st : RawState)
    (hc : cutoff ≠ "") :
    (load_state cutoff (some st)).last_check = st.last_check ∧
    (load_state cutoff (some st)).seen_invoices
      = st.seen_invoices.filter (keepEntry cutoff) ∧
    ∀ e : RawEntry,
      e ∈ (load_state cutoff (some st)).seen_invoices ↔
        e ∈ st.seen_invoices ∧
        ∃ h t, e = .dict (some h) (some t) ∧ pyStrLe cutoff t = true := by
  refine ⟨rfl, rfl, ?_⟩
  intro e
  rw [load_state, List.mem_filter]
  refine and_congr_right fun _ => ?_
  cases e with
  | str s => simp [keepEntry]
  | dict h ts =>
    cases h with
    | none => simp [keepEntry]
    | some hv =>
      cases ts with
      | none =>
        simp only [keepEntry, Option.isSome_some, Option.getD_none,
          Bool.true_and]
        rw [pyStrLe_empty_right cutoff hc]
        simp
      | some tv =>
        simp only [keepEntry, Option.isSome_some, Option.getD_some,
          Bool.true_and]
        constructor
        · intro hle
          exact ⟨hv, tv, rfl, hle⟩
        · rintro ⟨h', t', heq, hle⟩
          cases heq
          exact hle

/-- Witness for C5: a concrete state file holding a fresh structured
entry, a stale structured entry, a timestamp-less dict and an
old-format string keeps exactly the fresh structured entry. -/
theorem C5_witness :
    (load_state "2024-03-01T00:00:00+00:00"
      (some ⟨some "2024-05-30T00:00:00+00:00",
        [.dict (some "aa") (some "2024-05-01T00:00:00+00:00"),
         .dict (some "bb") (some "2023-01-01T00:00:00+00:00"),
         .dict (some "cc") none,
         .str "0123456789abcdef"]⟩)).seen_invoices
      = [.dict (some "aa") (some "2024-05-01T00:00:00+00:00")] := by
  have h := C5_load_ttl_eviction "2024-03-01T00:00:00+00:00"
    ⟨some "2024-05-30T00:00:00+00:00",
      [.dict (some "aa") (some "2024-05-01T00:00:00+00:00"),
       .dict (some "bb") (some "2023-01-01T00:00:00+00:00"),
       .dict (some "cc") none,
       .str "0123456789abcdef"]⟩
    (by decide)
  rw [h.2.1]
  decide

/-! ## C6 -/

/-- C6: at save time `check_for_new_invoices` stores
`seen_entries[-1000:]`: a suffix of the accumulated ledger of length
`min len 1000` — the most recent 1000 entries in insertion order,
independent of the age filter (which runs at load time only); in
particular 1500 entries are cut down to exactly the final 1000. -/
theorem C6_save_cap :
    (∀ (sts : List String) (qos : Nat → QueryOracles)
        (sha : String → String) (now : String) (nOk : Nat → Bool)
        (art : Invoice → String → ClientState → ClientState)
        (loaded : RawState) (cs : ClientState),
      (check_for_new_invoices sts qos sha now nOk art loaded cs).saved.seen_invoices
        = lastN 1000
          (runCycle sts qos sha now nOk art loaded cs).seen_entries) ∧
    (∀ l : List RawEntry, lastN 1000 l <:+ l) ∧
    (∀ l : List RawEntry, (lastN 1000 l).length = min l.length 1000) ∧
    (∀ l : List RawEntry, l.length = 1500 → lastN 1000 l = l.drop 500) := by
  refine ⟨?_, ?_, ?_, ?_⟩
  · intro sts qos sha now nOk art loaded cs
    simp only [check_for_new_invoices]
  · intro l
    exact List.drop_suffix _ _
  · intro l
    simp only [lastN, List.length_drop]
    omega
  · intro l hl
    simp [lastN, hl]

/-- Witness for C6: a concrete 1500-entry ledger is capped to its last
1000 entries. -/
theorem C6_witness :
    lastN 1000 ((List.range 1500).map (fun i => RawEntry.str (toString i)))
      = ((List.range 1500).map (fun i => RawEntry.str (toString i))).drop 500 := by
  exact C6_save_cap.2.2.2 _
    (by rw [List.length_map, List.length_range])

/-! ## C4 -/

/-- A 100 response consumes one attempt and records one backoff. -/
lemma waitLoop_step_100 (resp : Nat → PollResponse) (a fuel : Nat)
    (h : resp a = .status (some 100)) :
    waitLoop resp a (fuel + 1)
      = ((waitLoop resp (a + 1) fuel).1,
         backoffDelay a :: (waitLoop resp (a + 1) fuel).2) := by
  simp [waitLoop, h]

/-- A transport error with attempts left consumes one attempt and
records one backoff. -/
lemma waitLoop_step_te (resp : Nat → PollResponse) (a fuel : Nat)
    (h : resp a = .transportError) (hf : fuel ≠ 0) :
    waitLoop resp a (fuel + 1)
      = ((waitLoop resp (a + 1) fuel).1,
         backoffDelay a :: (waitLoop resp (a + 1) fuel).2) := by
  simp [waitLoop, h, hf]

/-- A 200 response terminates the loop successfully, with no sleep. -/
lemma waitLoop_200 (resp : Nat → PollResponse) (a fuel : Nat)
    (h : resp a = .status (some 200)) (hf : fuel ≠ 0) :
    waitLoop resp a fuel = (true, []) := by
  cases fuel with
  | zero => exact absurd rfl hf
  | succ f => simp [waitLoop, h]

/-- Any status other than 100 and 200 terminates the loop with
failure immediately, with no sleep. -/
lemma waitLoop_other (resp : Nat → PollResponse) (a fuel : Nat)
    (c : Option Int) (h : resp a = .status c) (h1 : c ≠ some 200)
    (h2 : c ≠ some 100) (hf : fuel ≠ 0) :
    waitLoop resp a fuel = (false, []) := by
  cases fuel with
  | zero => exact absurd rfl hf
  | succ f => simp [waitLoop, h, h1, h2]

/-- Skipping a block of retryable responses (100s or transport
errors), keeping at least one attempt afterwards. -/
lemma waitLoop_skip (resp : Nat → PollResponse) :
    ∀ (n a fuel : Nat), n < fuel →
    (∀ i, a ≤ i → i < a + n →
      resp i = .status (some 100) ∨ resp i = .transportError) →
    waitLoop resp a fuel
      = ((waitLoop resp (a + n) (fuel - n)).1,
         delaysFrom a n ++ (waitLoop resp (a + n) (fuel - n)).2) := by
  intro n
  induction n with
  | zero =>
    intro a fuel _ _
    simp [delaysFrom]
  | succ m ih =>
    intro a fuel hn hpre
    obtain ⟨f, rfl⟩ : ∃ f, fuel = f + 1 := ⟨fuel - 1, by omega⟩
    have hstep : waitLoop resp a (f + 1)
        = ((waitLoop resp (a + 1) f).1,
           backoffDelay a :: (waitLoop resp (a + 1) f).2) := by
      rcases hpre a (le_refl a) (by omega) with h | h
      · exact waitLoop_step_100 resp a f h
      · exact waitLoop_step_te resp a f h (by omega)
    rw [hstep, ih (a + 1) f (by omega)
      (fun i h1 h2 => hpre i (by omega) (by omega))]
    have e1 : a + 1 + m = a + (m + 1) := by omega
    have e2 : f - m = f + 1 - (m + 1) := by omega
    rw [e1, e2]
    simp [delaysFrom]

/-- Skipping a block of 100 responses; here the block may use up the
whole attempt budget. -/
lemma waitLoop_skip_all100 (resp : Nat → PollResponse) :
    ∀ (n a fuel : Nat), n ≤ fuel →
    (∀ i, a ≤ i → i < a + n → resp i = .status (some 100)) →
    waitLoop resp a fuel
      = ((waitLoop resp (a + n) (fuel - n)).1,
         delaysFrom a n ++ (waitLoop resp (a + n) (fuel - n)).2) := by
  intro n
  induction n with
  | zero =>
    intro a fuel _ _
    simp [delaysFrom]
  | succ m ih =>
    intro a fuel hn hpre
    obtain ⟨f, rfl⟩ : ∃ f, fuel = f + 1 := ⟨fuel - 1, by omega⟩
    rw [waitLoop_step_100 resp a f (hpre a (le_refl a) (by omega)),
      ih (a + 1) f (by omega)
        (fun i h1 h2 => hpre i (by omega) (by omega))]
    have e1 : a + 1 + m = a + (m + 1) := by omega
    have e2 : f - m = f + 1 - (m + 1) := by omega
    rw [e1, e2]
    simp [delaysFrom]

/-- The loop result depends only on the responses of the attempts it
may perform. -/
lemma waitLoop_congr : ∀ (fuel a : Nat) (r r' : Nat → PollResponse),
    (∀ i, a ≤ i → i < a + fuel → r i = r' i) →
    waitLoop r a fuel = waitLoop r' a fuel := by
  intro fuel
  induction fuel with
  | zero => intro a r r' _; rfl
  | succ f ih =>
    intro a r r' h
    have ha : r a = r' a := h a (le_refl a) (by omega)
    have ht : waitLoop r (a + 1) f = waitLoop r' (a + 1) f :=
      ih (a + 1) r r' (fun i h1 h2 => h i (by omega) (by omega))
    simp only [waitLoop, ha, ht]

/-- C4: the contract of `_wait_for_auth_status`: after any run of
retryable responses (100s and transport errors, each costing the
backoff `min(2 ** attempt, 10)`), a 200 terminates with success and
any code other than 100/200 terminates with failure immediately; the
loop never looks beyond the first 15 responses; and 15 straight 100s
exhaust the budget with failure after delays
1, 2, 4, 8, 10, 10, ..., 10. -/
theorem C4_poll_contract :
    (∀ (resp : Nat → PollResponse) (k : Nat),
      (∀ i, i < k →
        resp i = .status (some 100) ∨ resp i = .transportError) →
      resp k = .status (some 200) → k < 15 →
      waitForAuthStatus resp = (true, delaysFrom 0 k)) ∧
    (∀ (resp : Nat → PollResponse) (k : Nat) (c : Option Int),
      (∀ i, i < k →
        resp i = .status (some 100) ∨ resp i = .transportError) →
      resp k = .status c → c ≠ some 200 → c ≠ some 100 → k < 15 →
      waitForAuthStatus resp = (false, delaysFrom 0 k)) ∧
    (∀ k, backoffDelay k = min (2 ^ k) 10) ∧
    delaysFrom 0 15
      = [1, 2, 4, 8, 10, 10, 10, 10, 10, 10, 10, 10, 10, 10, 10] ∧
    (∀ resp : Nat → PollResponse,
      (∀ i, i < 15 → resp i = .status (some 100)) →
      waitForAuthStatus resp = (false, delaysFrom 0 15)) ∧
    (∀ r r' : Nat → PollResponse, (∀ i, i < 15 → r i = r' i) →
      waitForAuthStatus r = waitForAuthStatus r') := by
  refine ⟨?_, ?_, fun k => rfl, by decide, ?_, ?_⟩
  · intro resp k hpre h200 hk
    have hs := waitLoop_skip resp k 0 15 hk
      (fun i h1 h2 => hpre i (by omega))
    rw [Nat.zero_add] at hs
    rw [waitForAuthStatus, hs,
      waitLoop_200 resp k (15 - k) h200 (by omega)]
    simp
  · intro resp k c hpre hc h1 h2 hk
    have hs := waitLoop_skip resp k 0 15 hk
      (fun i h1 h2 => hpre i (by omega))
    rw [Nat.zero_add] at hs
    rw [waitForAuthStatus, hs,
      waitLoop_other resp k (15 - k) c hc h1 h2 (by omega)]
    simp
  · intro resp hall
    have hs := waitLoop_skip_all100 resp 15 0 15 (le_refl 15)
      (fun i h1 h2 => hall i (by omega))
    rw [Nat.zero_add] at hs
    rw [waitForAuthStatus, hs]
    simp [waitLoop]
  · intro r r' h
    exact waitLoop_congr 15 0 r r' (fun i h1 h2 => h i (by omega))

/-- Witness for C4: two in-progress responses followed by a success
yield success after sleeping 1 s and then 2 s. -/
theorem C4_witness :
    waitForAuthStatus
      (fun i => if i < 2 then .status (some 100) else .status (some 200))
      = (true, [1, 2]) := by
  have h := C4_poll_contract.1
    (fun i => if i < 2 then .status (some 100) else .status (some 200)) 2
    (fun i hi => Or.inl (by simp [hi]))
    (by simp) (by omega)
  have e : delaysFrom 0 2 = [1, 2] := by decide
  rw [e] at h
  exact h

/-! ## C2 -/

/-- Counting events across an appended singleton. -/
lemma eventCount_append (sha : String → String) (d : String)
    (evs : List TriggerEvent) (e : TriggerEvent) :
    eventCount sha d (evs ++ [e])
      = eventCount sha d evs
        + (if get_invoice_id_hash sha e.invoice = d then 1 else 0) := by
  by_cases hp : get_invoice_id_hash sha e.invoice = d <;>
    simp [eventCount, List.filter_append, hp]

/-- A fold preserves any invariant its step preserves. -/
lemma foldl_preserve {α : Type} {P : LoopAcc → Prop}
    (f : LoopAcc → α → LoopAcc)
    (hf : ∀ acc x, P acc → P (f acc x)) :
    ∀ (l : List α) (acc : LoopAcc), P acc → P (l.foldl f acc) := by
  intro l
  induction l with
  | nil => intro acc h; exact h
  | cons x xs ih => intro acc h; exact ih (f acc x) (hf acc x h)

/-- Two folds starting in related states stay related if the steps
preserve the relation. -/
lemma foldl_rel {α : Type} {R : LoopAcc → LoopAcc → Prop}
    (f g : LoopAcc → α → LoopAcc)
    (hfg : ∀ a b x, R a b → R (f a x) (g b x)) :
    ∀ (l : List α) (a b : LoopAcc), R a b → R (l.foldl f a) (l.foldl g b) := by
  intro l
  induction l with
  | nil => intro a b h; exact h
  | cons x xs ih => intro a b h; exact ih _ _ (hfg a b x h)

/-- Per-invoice preservation of the at-most-once invariant: at most
one event per digest, and a digest with an event is in the seen set. -/
lemma processInvoice_atMostOnce (sha : String → String)
    (now st0 : String) (nOk : Nat → Bool)
    (art : KSeF.Invoice → String → KSeF.ClientState → KSeF.ClientState)
    (d : String) (acc : LoopAcc) (inv : KSeF.Invoice)
    (h1 : eventCount sha d acc.events ≤ 1)
    (h2 : 1 ≤ eventCount sha d acc.events → d ∈ acc.seen_hashes) :
    eventCount sha d (processInvoice sha now st0 nOk art acc inv).events ≤ 1
    ∧ (1 ≤ eventCount sha d (processInvoice sha now st0 nOk art acc inv).events
        → d ∈ (processInvoice sha now st0 nOk art acc inv).seen_hashes) := by
  by_cases hm : get_invoice_id_hash sha inv ∈ acc.seen_hashes
  · simp only [processInvoice, if_pos hm]
    exact ⟨h1, h2⟩
  · simp only [processInvoice, if_neg hm]
    rw [eventCount_append]
    by_cases hd : get_invoice_id_hash sha inv = d
    · have hz : eventCount sha d acc.events = 0 := by
        by_contra hnz
        exact hm (hd ▸ h2 (by omega))
      rw [hz, hd, if_pos rfl]
      exact ⟨by omega, fun _ => List.mem_cons_self _ _⟩
    · rw [if_neg hd]
      simp only [Nat.add_zero]
      exact ⟨h1, fun h => List.mem_cons_of_mem _ (h2 h)⟩

/-- Per-invoice preservation of "already seen before the run, hence
never triggered": membership persists and the event count stays 0. -/
lemma processInvoice_seenZero (sha : String → String)
    (now st0 : String) (nOk : Nat → Bool)
    (art : KSeF.Invoice → String → KSeF.ClientState → KSeF.ClientState)
    (d : String) (acc : LoopAcc) (inv : KSeF.Invoice)
    (h1 : d ∈ acc.seen_hashes)
    (h2 : eventCount sha d acc.events = 0) :
    d ∈ (processInvoice sha now st0 nOk art acc inv).seen_hashes
    ∧ eventCount sha d (processInvoice sha now st0 nOk art acc inv).events
        = 0 := by
  by_cases hm : get_invoice_id_hash sha inv ∈ acc.seen_hashes
  · simp only [processInvoice, if_pos hm]
    exact ⟨h1, h2⟩
  · simp only [processInvoice, if_neg hm]
    have hd : get_invoice_id_hash sha inv ≠ d := fun e => hm (e ▸ h1)
    rw [eventCount_append, if_neg hd]
    exact ⟨List.mem_cons_of_mem _ h1, by omega⟩

/-- `processInvoice` with different notification oracles preserves
equality of everything but the notification outcomes. -/
lemma processInvoice_data (sha : String → String) (now st0 : String)
    (art : KSeF.Invoice → String → KSeF.ClientState → KSeF.ClientState)
    (n1 n2 : Nat → Bool) (a b : LoopAcc) (inv : KSeF.Invoice)
    (h : accData a = accData b) :
    accData (processInvoice sha now st0 n1 art a inv)
      = accData (processInvoice sha now st0 n2 art b inv) := by
  have e1 : a.seen_hashes = b.seen_hashes := congrArg (fun p => p.1) h
  have e2 : a.seen_entries = b.seen_entries := congrArg (fun p => p.2.1) h
  have e3 : a.client = b.client := congrArg (fun p => p.2.2.1) h
  have e4 : a.events.map (fun e => (e.invoice, e.subject_type))
      = b.events.map (fun e => (e.invoice, e.subject_type)) :=
    congrArg (fun p => p.2.2.2) h
  by_cases hm : get_invoice_id_hash sha inv ∈ a.seen_hashes
  · rw [processInvoice, if_pos hm, processInvoice, if_pos (e1 ▸ hm)]
    exact h
  · rw [processInvoice, if_neg hm, processInvoice, if_neg (e1 ▸ hm)]
    simp [accData, e1, e2, e3, e4]

/-- `processSubject` with different notification oracles preserves
`accData`: the queries see the same client state, hence return the
same invoices, and the per-invoice steps preserve the data. -/
lemma processSubject_data (sha : String → String) (now : String)
    (art : KSeF.Invoice → String → KSeF.ClientState → KSeF.ClientState)
    (n1 n2 : Nat → Bool) (qo : QueryOracles) (st0 : String)
    (a b : LoopAcc) (h : accData a = accData b) :
    accData (processSubject sha now n1 art qo st0 a)
      = accData (processSubject sha now n2 art qo st0 b) := by
  have e1 : a.seen_hashes = b.seen_hashes := congrArg (fun p => p.1) h
  have e2 : a.seen_entries = b.seen_entries := congrArg (fun p => p.2.1) h
  have e3 : a.client = b.client := congrArg (fun p => p.2.2.1) h
  have e4 : a.events.map (fun e => (e.invoice, e.subject_type))
      = b.events.map (fun e => (e.invoice, e.subject_type)) :=
    congrArg (fun p => p.2.2.2) h
  simp only [processSubject, e3]
  exact foldl_rel (R := fun x y => accData x = accData y)
    (processInvoice sha now st0 n1 art) (processInvoice sha now st0 n2 art)
    (fun x y inv hr => processInvoice_data sha now st0 art n1 n2 x y inv hr)
    (get_invoices_metadata qo b.client).invoices
    { a with client := (get_invoices_metadata qo b.client).state }
    { b with client := (get_invoices_metadata qo b.client).state }
    (by simp [accData, e1, e2, e4])

/-- The whole cycle with different notification oracles produces the
same data (seen set, ledger, client state, event data). -/
lemma runCycle_data (sts : List String) (qos : Nat → QueryOracles)
    (sha : String → String) (now : String) (n1 n2 : Nat → Bool)
    (art : KSeF.Invoice → String → KSeF.ClientState → KSeF.ClientState)
    (loaded : RawState) (cs : KSeF.ClientState) :
    accData (runCycle sts qos sha now n1 art loaded cs)
      = accData (runCycle sts qos sha now n2 art loaded cs) := by
  simp only [runCycle]
  exact foldl_rel (R := fun x y => accData x = accData y)
    (fun acc p => processSubject sha now n1 art (qos p.1) p.2 acc)
    (fun acc p => processSubject sha now n2 art (qos p.1) p.2 acc)
    (fun a b p h => processSubject_data sha now art n1 n2 (qos p.1) p.2 a b h)
    sts.enum _ _ rfl

/-- C2: across a whole `check_for_new_invoices` run, at most one
trigger event fires per identity digest; a digest already present in
the loaded ledger fires none; and the persisted state (ledger and
timestamp) is identical whatever the notification outcomes are — the
marking happens before, and independently of, the notification side
effect.  The closed final conjunct is the duplicate-batch scenario: a
batch with two invoices of equal digest triggers exactly once, and the
digest is persisted even though every notification attempt failed. -/
theorem C2_at_most_once_marking :
    (∀ (sts : List String) (qos : Nat → QueryOracles)
        (sha : String → String) (now : String) (nOk : Nat → Bool)
        (art : KSeF.Invoice → String → KSeF.ClientState → KSeF.ClientState)
        (loaded : RawState) (cs : KSeF.ClientState) (d : String),
      eventCount sha d
        (check_for_new_invoices sts qos sha now nOk art loaded cs).events
        ≤ 1) ∧
    (∀ (sts : List String) (qos : Nat → QueryOracles)
        (sha : String → String) (now : String) (nOk : Nat → Bool)
        (art : KSeF.Invoice → String → KSeF.ClientState → KSeF.ClientState)
        (loaded : RawState) (cs : KSeF.ClientState) (d : String)
        (ts : Option String),
      RawEntry.dict (some d) ts ∈ loaded.seen_invoices →
      eventCount sha d
        (check_for_new_invoices sts qos sha now nOk art loaded cs).events
        = 0) ∧
    (∀ (sts : List String) (qos : Nat → QueryOracles)
        (sha : String → String) (now : String) (n1 n2 : Nat → Bool)
        (art : KSeF.Invoice → String → KSeF.ClientState → KSeF.ClientState)
        (loaded : RawState) (cs : KSeF.ClientState),
      (check_for_new_invoices sts qos sha now n1 art loaded cs).saved
        = (check_for_new_invoices sts qos sha now n2 art loaded cs).saved) ∧
    ((check_for_new_invoices ["Subject1"]
        (fun _ => ⟨⟨.error, .error, .error, fun _ => .transportError, .error⟩,
          some (200, [⟨some "X", none⟩, ⟨some "X", none⟩]), .error,
          ⟨.error, .error, .error, fun _ => .transportError, .error⟩, none⟩)
        (fun s => s) "2024-06-01T10:00:00+00:00" (fun _ => false)
        (fun _ _ c => c) ⟨none, []⟩
        ⟨some "at", none, none⟩).events.map (fun e => e.invoice)
        = [⟨some "X", none⟩] ∧
      (check_for_new_invoices ["Subject1"]
        (fun _ => ⟨⟨.error, .error, .error, fun _ => .transportError, .error⟩,
          some (200, [⟨some "X", none⟩, ⟨some "X", none⟩]), .error,
          ⟨.error, .error, .error, fun _ => .transportError, .error⟩, none⟩)
        (fun s => s) "2024-06-01T10:00:00+00:00" (fun _ => false)
        (fun _ _ c => c) ⟨none, []⟩
        ⟨some "at", none, none⟩).saved.seen_invoices
        = [.dict (some "X") (some "2024-06-01T10:00:00+00:00")]) := by
  refine ⟨?_, ?_, ?_, by decide, by decide⟩
  · intro sts qos sha now nOk art loaded cs d
    have hP : ∀ acc : LoopAcc,
        (eventCount sha d acc.events ≤ 1
          ∧ (1 ≤ eventCount sha d acc.events → d ∈ acc.seen_hashes)) →
        ∀ p : Nat × String,
        (eventCount sha d
            (processSubject sha now nOk art (qos p.1) p.2 acc).events ≤ 1
          ∧ (1 ≤ eventCount sha d
                (processSubject sha now nOk art (qos p.1) p.2 acc).events
              → d ∈ (processSubject sha now nOk art (qos p.1) p.2 acc).seen_hashes)) := by
      intro acc hacc p
      exact foldl_preserve
        (P := fun acc2 => eventCount sha d acc2.events ≤ 1
          ∧ (1 ≤ eventCount sha d acc2.events → d ∈ acc2.seen_hashes))
        (processInvoice sha now p.2 nOk art)
        (fun acc2 inv h =>
          processInvoice_atMostOnce sha now p.2 nOk art d acc2 inv h.1 h.2)
        (get_invoices_metadata (qos p.1) acc.client).invoices
        { acc with client := (get_invoices_metadata (qos p.1) acc.client).state }
        hacc
    have hfin := foldl_preserve
      (P := fun acc => eventCount sha d acc.events ≤ 1
        ∧ (1 ≤ eventCount sha d acc.events → d ∈ acc.seen_hashes))
      (fun acc p => processSubject sha now nOk art (qos p.1) p.2 acc)
      (fun acc p h => hP acc h p) sts.enum
      { seen_hashes := loaded.seen_invoices.filterMap
          (fun e => match e with | .dict h _ => h | .str _ => none),
        seen_entries := loaded.seen_invoices,
        events := [],
        client := cs }
      ⟨by simp [eventCount], by simp [eventCount]⟩
    exact hfin.1
  · intro sts qos sha now nOk art loaded cs d ts hmem
    have hinit : d ∈ loaded.seen_invoices.filterMap
        (fun e => match e with | .dict h _ => h | .str _ => none) :=
      List.mem_filterMap.mpr ⟨.dict (some d) ts, hmem, rfl⟩
    have hQ : ∀ acc : LoopAcc,
        (d ∈ acc.seen_hashes ∧ eventCount sha d acc.events = 0) →
        ∀ p : Nat × String,
        (d ∈ (processSubject sha now nOk art (qos p.1) p.2 acc).seen_hashes
          ∧ eventCount sha d
              (processSubject sha now nOk art (qos p.1) p.2 acc).events
            = 0) := by
      intro acc hacc p
      exact foldl_preserve
        (P := fun acc2 => d ∈ acc2.seen_hashes
          ∧ eventCount sha d acc2.events = 0)
        (processInvoice sha now p.2 nOk art)
        (fun acc2 inv h2 =>
          processInvoice_seenZero sha now p.2 nOk art d acc2 inv h2.1 h2.2)
        (get_invoices_metadata (qos p.1) acc.client).invoices
        { acc with client := (get_invoices_metadata (qos p.1) acc.client).state }
        hacc
    have hfin := foldl_preserve
      (P := fun acc => d ∈ acc.seen_hashes
        ∧ eventCount sha d acc.events = 0)
      (fun acc p => processSubject sha now nOk art (qos p.1) p.2 acc)
      (fun acc p h => hQ acc h p)
      sts.enum
      { seen_hashes := loaded.seen_invoices.filterMap
          (fun e => match e with | .dict h _ => h | .str _ => none),
        seen_entries := loaded.seen_invoices,
        events := [],
        client := cs }
      ⟨hinit, by simp [eventCount]⟩
    exact hfin.2
  · intro sts qos sha now n1 n2 art loaded cs
    have h := runCycle_data sts qos sha now n1 n2 art loaded cs
    have e2 : (runCycle sts qos sha now n1 art loaded cs).seen_entries
        = (runCycle sts qos sha now n2 art loaded cs).seen_entries :=
      congrArg (fun p => p.2.1) h
    simp [check_for_new_invoices, e2]

/-- Witness for C2: an identity already in the loaded ledger fires no
trigger in a run that returns it again. -/
theorem C2_witness :
    eventCount (fun s => s) "X"
      (check_for_new_invoices ["Subject1"]
        (fun _ => ⟨⟨.error, .error, .error, fun _ => .transportError, .error⟩,
          some (200, [⟨some "X", none⟩]), .error,
          ⟨.error, .error, .error, fun _ => .transportError, .error⟩, none⟩)
        (fun s => s) "2024-06-01T10:00:00+00:00" (fun _ => true)
        (fun _ _ c => c)
        ⟨some "2024-05-31T00:00:00+00:00",
          [.dict (some "X") (some "2024-05-31T00:00:00+00:00")]⟩
        ⟨some "at", none, none⟩).events = 0 := by
  exact C2_at_most_once_marking.2.1 ["Subject1"] _ (fun s => s)
    "2024-06-01T10:00:00+00:00" (fun _ => true) (fun _ _ c => c)
    ⟨some "2024-05-31T00:00:00+00:00",
      [.dict (some "X") (some "2024-05-31T00:00:00+00:00")]⟩
    ⟨some "at", none, none⟩ "X" (some "2024-05-31T00:00:00+00:00")
    (by decide)

/-! ## C1 -/

/-- C1 counterexample: a cycle in which the single query's 401 is
answered by a failing refresh and a failing reauthentication (so the
credential is exhausted) still persists `last_check = now`, different
from the loaded value — the cycle is not aborted and the window is
not retried. -/
theorem C1_counterexample :
    (refresh_access_token credFailQO.refreshResp
      ⟨some "at", some "rt", none⟩).1 = false ∧
    (authenticate credFailQO.recoveryAuthO
      ⟨some "at", some "rt", none⟩).ok = false ∧
    (get_invoices_metadata credFailQO
      ⟨some "at", some "rt", none⟩).recoveryAuth = true ∧
    (check_for_new_invoices ["Subject1"] (fun _ => credFailQO) (fun s => s)
      "2024-06-01T10:00:00+00:00" (fun _ => true) (fun _ _ c => c)
      ⟨some "2024-01-01T00:00:00+00:00", []⟩
      ⟨some "at", some "rt", none⟩).saved.last_check
      = some "2024-06-01T10:00:00+00:00" ∧
    (some "2024-06-01T10:00:00+00:00" : Option String)
      ≠ some "2024-01-01T00:00:00+00:00" := by
  refine ⟨rfl, rfl, rfl, rfl, by decide⟩

/-- C1 (amended): a credential failure during a query (401 answered by
a failing refresh and a failing reauthentication) makes that query
contribute zero invoices, but does not abort the cycle: every run of
`check_for_new_invoices` — credential failures included — persists
`last_check = now`. -/
theorem C1_cycle_always_advances :
    (∀ (sts : List String) (qos : Nat → QueryOracles)
        (sha : String → String) (now : String) (nOk : Nat → Bool)
        (art : KSeF.Invoice → String → KSeF.ClientState → KSeF.ClientState)
        (loaded : RawState) (cs : KSeF.ClientState),
      (check_for_new_invoices sts qos sha now nOk art loaded cs).saved.last_check
        = some now) ∧
    (∀ (o : QueryOracles) (s : KSeF.ClientState),
      isTruthy s.access_token = true →
      (∃ invs, o.firstPost = some (401, invs)) →
      (refresh_access_token o.refreshResp s).1 = false →
      (authenticate o.recoveryAuthO
        (refresh_access_token o.refreshResp s).2).ok = false →
      (get_invoices_metadata o s).invoices = []) := by
  constructor
  · intro sts qos sha now nOk art loaded cs
    simp [check_for_new_invoices]
  · rintro o s hacc ⟨invs, hfp⟩ href hauth
    simp [get_invoices_metadata, hacc, queryCore, hfp, href, hauth]

/-- Witness for C1 (amended): the concrete credential-failure run
advances `last_check` and yields no invoices. -/
theorem C1_witness :
    (check_for_new_invoices ["Subject1"] (fun _ => credFailQO) (fun s => s)
      "2024-06-01T10:00:00+00:00" (fun _ => true) (fun _ _ c => c)
      ⟨some "2024-01-01T00:00:00+00:00", []⟩
      ⟨some "at", some "rt", none⟩).saved.last_check
      = some "2024-06-01T10:00:00+00:00" ∧
    (get_invoices_metadata credFailQO
      ⟨some "at", some "rt", none⟩).invoices = [] := by
  constructor
  · exact C1_cycle_always_advances.1 ["Subject1"] (fun _ => credFailQO)
      (fun s => s) "2024-06-01T10:00:00+00:00" (fun _ => true)
      (fun _ _ c => c) ⟨some "2024-01-01T00:00:00+00:00", []⟩
      ⟨some "at", some "rt", none⟩
  · exact C1_cycle_always_advances.2 credFailQO
      ⟨some "at", some "rt", none⟩ (by decide) ⟨[], rfl⟩
      (by decide) (by decide)

end ClaimTheorems
